import Mathlib

/-!
Verification of the ReAct agent engine core (mistralrs-tui agent subsystem).

This file gives a shallow embedding, in Lean 4, of the components of the
ReAct (Reason-Act-Observe) engine:

* `state.rs`   : the iteration state machine (`ReActState`);
* `thought.rs` : the multi-pattern thought parser (`ThoughtParser`);
* `observation.rs` : the observation processor (`ObservationProcessor`);
* `gatherer.rs` : the composite context gatherer (`CompositeContextGatherer`);
* `engine.rs`  : the `run()` / `step()` drivers (`TuiReActEngine`).

Modelling conventions:

* Rust `usize`/`u64` are modelled as `Nat` (the source never relies on
  wrap-around for these values); `Duration` is modelled as a `Nat` of
  milliseconds.
* Rust `String`/`&str` are Lean `String`s.  `str::len()` (UTF-8 byte
  length) is modelled by `byteLen`, `str::chars().count()` by `charLen`.
* `serde_json::Value` is modelled by the inductive `Json`; numeric JSON
  values are carried as `Rat` (the claims under study never depend on
  float rounding of JSON numbers).
* External effects (wall-clock time, the LLM transport, tool execution,
  the cancellation flag written by a concurrent `cancel()` call) are
  modelled as explicit oracles supplied to the embedded functions.
-/

namespace MistralTui

/-! ### String helpers

`byteLen` models Rust `str::len()`: the UTF-8 byte length of the string.
`charLen` models `str::chars().count()`. -/

/-- UTF-8 byte length of a string (Rust `str::len()`). -/
def byteLen (s : String) : Nat := (s.data.map Char.utf8Size).sum

/-- Number of unicode scalar values (Rust `str::chars().count()`). -/
def charLen (s : String) : Nat := s.data.length

/-- Does `pat` occur as a contiguous sub-list starting at the head of `hay`? -/
def subAt : List Char → List Char → Bool
  | [], _ => true
  | _ :: _, [] => false
  | p :: ps, h :: hs => p == h && subAt ps hs

/-- Does `pat` occur as a contiguous sub-list of `hay`?  Models Rust
`str::contains(pat)` for string patterns: by UTF-8 self-synchronisation a
byte-level occurrence of a valid UTF-8 pattern inside valid UTF-8 text is
always aligned on character boundaries, so character-level containment is
faithful to the byte-level search. -/
def containsSub (hay pat : List Char) : Bool :=
  match hay with
  | [] => subAt pat []
  | _ :: hs => subAt pat hay || containsSub hs pat

/-- Rust `str::to_lowercase()`, modelled per-character with `Char.toLower`.
(The special multi-character Unicode lowercasings are not modelled; every
pattern the source compares against is pure ASCII.) -/
def rustToLowercase (s : String) : String := String.mk (s.data.map Char.toLower)

/-- Rust `a.contains(b)` on strings. -/
def strContains (hay pat : String) : Bool := containsSub hay.data pat.data

/-- Rust `char::is_whitespace`, restricted to the ASCII whitespace the
sources and inputs under study can contain. -/
def isRustWs (c : Char) : Bool := c = ' ' || c = '\t' || c = '\n' || c = '\r'

/-- Rust `str::trim`. -/
def rustTrim (s : String) : String :=
  String.mk (((s.data.dropWhile isRustWs).reverse.dropWhile isRustWs).reverse)

/-- Rust `str::trim_start`. -/
def rustTrimStart (s : String) : String :=
  String.mk (s.data.dropWhile isRustWs)

/-- Rust `str::starts_with`. -/
def rustStartsWith (s pre : String) : Bool := subAt pre.data s.data

/-- Rust `str::is_empty`. -/
def rustIsEmpty (s : String) : Bool := s.data.isEmpty

/-! ### `serde_json::Value` model -/

/-- Model of `serde_json::Value`. -/
inductive Json where
  | null
  | bool (b : Bool)
  | num (q : Rat)
  | str (s : String)
  | arr (xs : List Json)
  | obj (kvs : List (String × Json))

/-- `Value::as_str`. -/
def Json.asStr : Json → Option String
  | .str s => some s
  | _ => none

/-- `Value::as_bool`. -/
def Json.asBool : Json → Option Bool
  | .bool b => some b
  | _ => none

/-- `Value::as_f64` (numeric JSON values are carried exactly as `Rat`). -/
def Json.asNum : Json → Option Rat
  | .num q => some q
  | _ => none

/-- `Map::get` on a JSON object's key-value list (first match wins; a
parsed `serde_json` map holds each key at most once). -/
def jsonGet (kvs : List (String × Json)) (k : String) : Option Json :=
  match kvs with
  | [] => none
  | (k', v) :: rest => if k' = k then some v else jsonGet rest k

/-! ## `state.rs` — the ReAct state machine -/

/-- `TerminationReason` (state.rs). -/
inductive TerminationReason where
  | TaskComplete
  | MaxIterationsReached
  | UserCancelled
  | Error
  | Timeout
deriving DecidableEq

/-- `ReActPhase` (state.rs). -/
inductive ReActPhase where
  | Idle
  | Thinking
  | Acting
  | Observing
  | Terminated (reason : TerminationReason)
deriving DecidableEq

/-- `ActionStatus` (state.rs). -/
inductive ActionStatus where
  | Pending
  | Executing
  | Completed
  | Failed
  | Skipped
deriving DecidableEq

/-- `ActionResult` (state.rs); `duration` in milliseconds. -/
structure ActionResult where
  success : Bool
  output : String
  error : Option String
  duration : Nat

/-- `Action` (state.rs). -/
structure Action where
  tool_name : String
  arguments : Json
  status : ActionStatus
  result : Option ActionResult

/-- `Action::new`. -/
def Action.new (tool_name : String) (arguments : Json) : Action :=
  { tool_name := tool_name, arguments := arguments, status := .Pending, result := none }

/-- `ThoughtSummary` (state.rs).  The `f32` confidence is carried as `Rat`;
no claim under study depends on float rounding of confidences. -/
structure ThoughtSummary where
  text : String
  intent : String
  confidence : Option Rat

/-- `ReActIteration` (state.rs); `duration` in milliseconds. -/
structure ReActIteration where
  number : Nat
  thought_text : String
  actions_taken : List String
  observations : List String
  duration : Nat

/-- `StateError` (state.rs).  `Timeout.elapsed` in milliseconds. -/
inductive StateError where
  | InvalidTransition (from_phase : ReActPhase) (to_phase : ReActPhase)
  | MaxIterationsExceeded (max : Nat)
  | Timeout (elapsed : Nat)
  | AlreadyTerminated (reason : TerminationReason)
deriving DecidableEq

/-- `ReActState` (state.rs).  `started_at : Instant` is not carried: wall
clock time is external; `has_timed_out()` is modelled by an explicit
boolean observation wherever the engine polls it.  `timeout` is kept as a
plain number of milliseconds. -/
structure ReActState where
  phase : ReActPhase
  iteration : Nat
  last_thought : Option ThoughtSummary
  pending_actions : List Action
  accumulated_context : List String
  max_iterations : Nat
  timeout : Nat
  iteration_history : List ReActIteration

/-- `MAX_REACT_ITERATIONS`. -/
def MAX_REACT_ITERATIONS : Nat := 20

/-- `DEFAULT_REACT_TIMEOUT` (300 s) in milliseconds. -/
def DEFAULT_REACT_TIMEOUT : Nat := 300000

namespace ReActState

/-- `ReActState::with_config`. -/
def with_config (max_iterations : Nat) (timeout : Nat) : ReActState :=
  { phase := .Idle
  , iteration := 0
  , last_thought := none
  , pending_actions := []
  , accumulated_context := []
  , max_iterations := max_iterations
  , timeout := timeout
  , iteration_history := [] }

/-- `ReActState::new`. -/
def new : ReActState := with_config MAX_REACT_ITERATIONS DEFAULT_REACT_TIMEOUT

/-- `ReActState::reset` (the `started_at` refresh is a time effect, not
carried in the model). -/
def reset (s : ReActState) : ReActState :=
  { s with phase := .Idle
         , iteration := 0
         , last_thought := none
         , pending_actions := []
         , accumulated_context := []
         , iteration_history := [] }

/-- `ReActState::transition_to`.  Mutation is modelled by returning the
post-state next to the `Result`; on error the state is returned
unchanged, exactly as the Rust method returns before assigning. -/
def transition_to (s : ReActState) (new_phase : ReActPhase) :
    Except StateError Unit × ReActState :=
  match s.phase with
  | .Terminated reason => (.error (.AlreadyTerminated reason), s)
  | current =>
    let valid : Bool :=
      match current, new_phase with
      | .Idle, .Thinking => true
      | .Thinking, .Acting => true
      | .Acting, .Observing => true
      | .Observing, .Thinking => true
      | _, .Terminated _ => true
      | _, .Idle => true
      | _, _ => false
    if valid then (.ok (), { s with phase := new_phase })
    else (.error (.InvalidTransition s.phase new_phase), s)

/-- `ReActState::increment_iteration`. -/
def increment_iteration (s : ReActState) : Except StateError Unit × ReActState :=
  if s.iteration ≥ s.max_iterations then
    (.error (.MaxIterationsExceeded s.max_iterations), s)
  else
    (.ok (), { s with iteration := s.iteration + 1 })

/-- `ReActState::is_terminated`. -/
def is_terminated (s : ReActState) : Bool :=
  match s.phase with
  | .Terminated _ => true
  | _ => false

/-- `ReActState::can_continue`.  `has_timed_out()` reads the wall clock;
its value at the moment of the call is passed in as `timed_out`. -/
def can_continue (s : ReActState) (timed_out : Bool) : Bool :=
  !s.is_terminated && decide (s.iteration < s.max_iterations) && !timed_out

/-- `ReActState::add_context`. -/
def add_context (s : ReActState) (context : String) : ReActState :=
  { s with accumulated_context := s.accumulated_context ++ [context] }

/-- `ReActState::queue_action`. -/
def queue_action (s : ReActState) (a : Action) : ReActState :=
  { s with pending_actions := s.pending_actions ++ [a] }

/-- `ReActState::clear_pending_actions`. -/
def clear_pending_actions (s : ReActState) : ReActState :=
  { s with pending_actions := [] }

/-- `ReActState::complete_iteration`. -/
def complete_iteration (s : ReActState) (thought_text : String)
    (actions_taken : List String) (observations : List String)
    (duration : Nat) : ReActState :=
  { s with iteration_history := s.iteration_history ++
      [{ number := s.iteration
       , thought_text := thought_text
       , actions_taken := actions_taken
       , observations := observations
       , duration := duration }] }

/-- `ReActState::terminate`. -/
def terminate (s : ReActState) (reason : TerminationReason) :
    Except StateError Unit × ReActState :=
  s.transition_to (.Terminated reason)

/-- `ReActState::context_size`. -/
def context_size (s : ReActState) : Nat :=
  (s.accumulated_context.map byteLen).sum

end ReActState

/-! Operations on a session state, for invariants quantified over every
sequence of calls (claim C8). -/

/-- One public mutating call on `ReActState`. -/
inductive StateOp where
  | reset
  | transitionTo (p : ReActPhase)
  | incrementIteration
  | addContext (context : String)
  | queueAction (a : Action)
  | clearPendingActions
  | completeIteration (thought : String) (actions : List String)
      (observations : List String) (duration : Nat)
  | terminate (r : TerminationReason)

/-- Apply one call (the `Result` of fallible calls is dropped: on error the
Rust methods leave the state untouched, which the model mirrors). -/
def applyOp (s : ReActState) : StateOp → ReActState
  | .reset => s.reset
  | .transitionTo p => (s.transition_to p).2
  | .incrementIteration => (s.increment_iteration).2
  | .addContext c => s.add_context c
  | .queueAction a => s.queue_action a
  | .clearPendingActions => s.clear_pending_actions
  | .completeIteration t a o d => s.complete_iteration t a o d
  | .terminate r => (s.terminate r).2

/-- Apply a sequence of calls in order. -/
def applyOps (s : ReActState) : List StateOp → ReActState
  | [] => s
  | op :: ops => applyOps (applyOp s op) ops

/-! ### Checks on small concrete inputs -/

example : (ReActState.new.transition_to .Thinking).1 = .ok () := rfl

example :
    ((ReActState.with_config 3 1000).transition_to .Acting).1 =
      .error (.InvalidTransition .Idle .Acting) := rfl

/-- `transition_to` never changes `iteration` or `max_iterations`. -/
lemma transition_to_preserves_counters (s : ReActState) (p : ReActPhase) :
    (s.transition_to p).2.iteration = s.iteration ∧
    (s.transition_to p).2.max_iterations = s.max_iterations := by
  unfold ReActState.transition_to
  cases s.phase <;> dsimp only <;> (try split) <;> simp

/-! ## Claim C4 — the transition table -/

/-- The spec's transition table, written from the spec's words
(§4.1 of the specification): rows = current phase, columns = target. -/
def specLegalTransition : ReActPhase → ReActPhase → Bool
  | .Idle, .Idle => true
  | .Idle, .Thinking => true
  | .Idle, .Terminated _ => true
  | .Thinking, .Idle => true
  | .Thinking, .Acting => true
  | .Thinking, .Terminated _ => true
  | .Acting, .Idle => true
  | .Acting, .Observing => true
  | .Acting, .Terminated _ => true
  | .Observing, .Idle => true
  | .Observing, .Thinking => true
  | .Observing, .Terminated _ => true
  | _, _ => false

/-- C4: `transition_to` succeeds exactly on the spec's legal pairs
(Idle→{Idle,Thinking,Terminated}, Thinking→{Idle,Acting,Terminated},
Acting→{Idle,Observing,Terminated}, Observing→{Idle,Thinking,Terminated}),
updating the phase on success and leaving the state unchanged on error;
and from a `Terminated` phase every `transition_to` call errors with
`AlreadyTerminated` (so only `reset()` can leave `Terminated`). -/
theorem transition_to_matches_spec_table (s : ReActState) (p : ReActPhase) :
    ((s.transition_to p).1.isOk = specLegalTransition s.phase p)
    ∧ ((s.transition_to p).2 =
        if specLegalTransition s.phase p then { s with phase := p } else s)
    ∧ (∀ r : TerminationReason,
        ReActState.transition_to { s with phase := .Terminated r } p =
          (.error (.AlreadyTerminated r), { s with phase := .Terminated r })) := by
  refine ⟨?_, ?_, ?_⟩
  · cases h : s.phase <;> cases p <;>
      simp [ReActState.transition_to, specLegalTransition, h, Except.isOk, Except.toBool]
  · cases h : s.phase <;> cases p <;>
      simp [ReActState.transition_to, specLegalTransition, h]
  · intro r
    simp [ReActState.transition_to]

/-! ## Claim C8 — the iteration counter bound -/

/-- C8: `increment_iteration()` called when `iteration ≥ max_iterations`
returns `MaxIterationsExceeded` and returns the state entirely unchanged;
and after every sequence of public operations on a freshly configured
state, `iteration ≤ max_iterations` holds. -/
theorem increment_iteration_bound :
    (∀ s : ReActState, s.max_iterations ≤ s.iteration →
      s.increment_iteration = (.error (.MaxIterationsExceeded s.max_iterations), s))
    ∧ (∀ (m t : Nat) (ops : List StateOp),
        (applyOps (ReActState.with_config m t) ops).iteration ≤
          (applyOps (ReActState.with_config m t) ops).max_iterations) := by
  constructor
  · intro s h
    simp [ReActState.increment_iteration, Nat.le_of_lt_succ]
    omega
  · have step : ∀ (s : ReActState) (op : StateOp),
        s.iteration ≤ s.max_iterations →
        (applyOp s op).iteration ≤ (applyOp s op).max_iterations := by
      intro s op h
      cases op with
      | reset => simpa [applyOp, ReActState.reset] using Nat.zero_le _
      | transitionTo p =>
        have hpres := transition_to_preserves_counters s p
        simpa [applyOp, hpres.1, hpres.2] using h
      | incrementIteration =>
        simp only [applyOp, ReActState.increment_iteration]
        split <;> simp_all <;> omega
      | addContext c => simpa [applyOp, ReActState.add_context] using h
      | queueAction a => simpa [applyOp, ReActState.queue_action] using h
      | clearPendingActions => simpa [applyOp, ReActState.clear_pending_actions] using h
      | completeIteration t a o d =>
        simpa [applyOp, ReActState.complete_iteration] using h
      | terminate r =>
        have hpres := transition_to_preserves_counters s (.Terminated r)
        simpa [applyOp, ReActState.terminate, hpres.1, hpres.2] using h
    intro m t ops
    have base : (ReActState.with_config m t).iteration ≤
        (ReActState.with_config m t).max_iterations := by
      simp [ReActState.with_config]
    generalize ReActState.with_config m t = s at base ⊢
    induction ops generalizing s with
    | nil => simpa [applyOps] using base
    | cons op ops ih => exact ih _ (step s op base)

/-- Witness for C8 at concrete inputs: a state at its iteration cap rejects
the increment unchanged, and a concrete operation sequence stays bounded. -/
theorem increment_iteration_bound_witness :
    (ReActState.increment_iteration
        { ReActState.with_config 2 1000 with iteration := 2 } =
      (.error (.MaxIterationsExceeded 2),
        { ReActState.with_config 2 1000 with iteration := 2 }))
    ∧ (applyOps (ReActState.with_config 1 1000)
        [.incrementIteration, .incrementIteration]).iteration ≤
        (applyOps (ReActState.with_config 1 1000)
          [.incrementIteration, .incrementIteration]).max_iterations := by
  constructor
  · exact increment_iteration_bound.1 _ (by decide)
  · exact increment_iteration_bound.2 1 1000 _

/-! ## `thought.rs` — the thought parser -/

/-- `PlannedAction` (thought.rs). -/
structure PlannedAction where
  tool_name : String
  description : String
  arguments : Option Json

/-- `Thought` (thought.rs); confidence carried as `Rat` (see header). -/
structure Thought where
  reasoning : String
  confidence : Option Rat
  planned_actions : List PlannedAction
  is_final_answer : Bool
  raw_content : String

/-- `Thought::new`. -/
def Thought.new (reasoning : String) : Thought :=
  { reasoning := reasoning
  , confidence := none
  , planned_actions := []
  , is_final_answer := false
  , raw_content := reasoning }

/-- `Thought::final_answer`. -/
def Thought.final_answer (answer : String) : Thought :=
  { reasoning := answer
  , confidence := some 1
  , planned_actions := []
  , is_final_answer := true
  , raw_content := answer }

/-- `ExtractionPattern` (thought.rs). -/
inductive ExtractionPattern where
  | ReActClassic
  | JsonStructured
  | ToolCallsInline
  | FreeForm
deriving DecidableEq

/-- `FallbackStrategy` (thought.rs). -/
inductive FallbackStrategy where
  | TreatAsThought
  | TreatAsFinalAnswer
  | RequestClarification
deriving DecidableEq

/-- `ThoughtParseError` (thought.rs).  The `serde_json::Error` payload of
`JsonError` is not observed by any caller and is dropped. -/
inductive ThoughtParseError where
  | ParseError (msg : String)
  | EmptyResponse
  | InvalidToolCall (msg : String)
  | JsonError
  | ClarificationNeeded
deriving DecidableEq

/-- `LLMToolCall` (llm_integration.rs, as consumed by the parser). -/
structure LLMToolCall where
  name : String
  arguments : Json
  id : Option String

/-- `ThoughtParser` (thought.rs). -/
structure ThoughtParser where
  patterns : List ExtractionPattern
  fallback_strategy : FallbackStrategy

/-- `ThoughtParser::new` (the default pattern order). -/
def ThoughtParser.new : ThoughtParser :=
  { patterns := [.ToolCallsInline, .JsonStructured, .ReActClassic, .FreeForm]
  , fallback_strategy := .TreatAsThought }

/-- The regex- and serde-based leaf analyses of `thought.rs`, supplied as
explicit functions:

* `fromStr` models `serde_json::from_str` (external crate);
* `jsonBlock` models the fenced-code-block capture of `extract_json`
  (`JSON_BLOCK` regex);
* `finalAnswerOf` models the `FINAL_ANSWER_PATTERN` capture of
  `extract_final_answer` (trimmed);
* `thoughtSectionOf` models the `THOUGHT_PATTERN` capture of
  `extract_thought_section` (trimmed);
* `reasoningUpToMarker` models the `ACTION_MARKER` branch of
  `extract_reasoning`: the trimmed prefix before the first action marker,
  or the whole text trimmed when no marker occurs;
* `plannedActionsOf` models the regex loop of `extract_planned_actions`.

The parser's control flow, which the claims under study are about, is
embedded exactly; these leaf analyses are universally quantified, so the
theorems below hold for every behaviour of the regex engine. -/
structure RegexOracle where
  fromStr : String → Option Json
  jsonBlock : String → Option String
  finalAnswerOf : String → Option String
  thoughtSectionOf : String → Option String
  reasoningUpToMarker : String → String
  plannedActionsOf : String → List PlannedAction

/-- `ThoughtParser::extract_reasoning`. -/
def extract_reasoning (H : RegexOracle) (text : String) : String :=
  match H.thoughtSectionOf text with
  | some thought => thought
  | none => H.reasoningUpToMarker text

/-- `ThoughtParser::detect_final_answer`. -/
def detect_final_answer (H : RegexOracle) (text : String)
    (has_tool_calls : Bool) : Bool :=
  if has_tool_calls then false
  else (H.finalAnswerOf text).isSome

/-- `ThoughtParser::parse_tool_calls_inline`. -/
def parse_tool_calls_inline (H : RegexOracle) (text : String)
    (tool_calls : List LLMToolCall) : Except ThoughtParseError Thought :=
  if tool_calls.isEmpty then
    .error (.ParseError "No tool calls provided")
  else
    let reasoning := extract_reasoning H text
    let is_final := detect_final_answer H text (!tool_calls.isEmpty)
    .ok { reasoning := reasoning
        , confidence := none
        , planned_actions := tool_calls.map fun call =>
            { tool_name := call.name
            , description := "Call " ++ call.name ++ " with arguments"
            , arguments := some call.arguments }
        , is_final_answer := is_final && tool_calls.isEmpty
        , raw_content := text }

/-- `ThoughtParser::extract_json`. -/
def extract_json (H : RegexOracle) (text : String) : Option String :=
  match H.jsonBlock text with
  | some block => some block
  | none =>
    if rustStartsWith (rustTrimStart text) "\x7b" then some (rustTrim text) else none

/-- `ThoughtParser::parse_json_structured`. -/
def parse_json_structured (H : RegexOracle) (text : String) :
    Except ThoughtParseError Thought :=
  let json_text := (extract_json H text).getD text
  match H.fromStr json_text with
  | none => .error .JsonError
  | some value =>
    match value with
    | .obj kvs =>
      let reasoning :=
        ((((jsonGet kvs "thought").orElse fun _ => jsonGet kvs "reasoning").orElse
            fun _ => jsonGet kvs "analysis").bind Json.asStr).getD ""
      if reasoning = "" then
        .error (.ParseError "No thought/reasoning field found")
      else
        let planned_actions : List PlannedAction :=
          match (jsonGet kvs "action").bind Json.asStr with
          | some action =>
            let arguments := jsonGet kvs "arguments"
            let description :=
              ((jsonGet kvs "description").bind Json.asStr).getD "Execute action"
            [{ tool_name := action, description := description, arguments := arguments }]
          | none => []
        let is_final_answer :=
          (((jsonGet kvs "final_answer").orElse fun _ =>
              jsonGet kvs "is_final").bind Json.asBool).getD false
        let confidence := (jsonGet kvs "confidence").bind Json.asNum
        .ok { reasoning := reasoning
            , confidence := confidence
            , planned_actions := planned_actions
            , is_final_answer := is_final_answer
            , raw_content := text }
    | _ => .error (.ParseError "JSON is not an object")

/-- `ThoughtParser::parse_react_classic`. -/
def parse_react_classic (H : RegexOracle) (text : String) :
    Except ThoughtParseError Thought :=
  match H.finalAnswerOf text with
  | some answer => .ok (Thought.final_answer answer)
  | none =>
    let reasoning :=
      match H.thoughtSectionOf text with
      | some thought => thought
      | none => text
    if rustIsEmpty (rustTrim reasoning) then
      .error (.ParseError "No reasoning found")
    else
      .ok { reasoning := reasoning
          , confidence := none
          , planned_actions := H.plannedActionsOf text
          , is_final_answer := false
          , raw_content := text }

/-- `ThoughtParser::parse_free_form`. -/
def parse_free_form (H : RegexOracle) (text : String) :
    Except ThoughtParseError Thought :=
  .ok { reasoning := text
      , confidence := none
      , planned_actions := []
      , is_final_answer := detect_final_answer H text false
      , raw_content := text }

/-- `ThoughtParser::try_pattern`. -/
def try_pattern (H : RegexOracle) (text : String)
    (tool_calls : List LLMToolCall) :
    ExtractionPattern → Except ThoughtParseError Thought
  | .ToolCallsInline => parse_tool_calls_inline H text tool_calls
  | .JsonStructured => parse_json_structured H text
  | .ReActClassic => parse_react_classic H text
  | .FreeForm => parse_free_form H text

/-- The pattern loop inside `ThoughtParser::parse`: first `Ok` wins. -/
def tryPatterns (H : RegexOracle) (text : String)
    (tool_calls : List LLMToolCall) :
    List ExtractionPattern → Option Thought
  | [] => none
  | p :: ps =>
    match try_pattern H text tool_calls p with
    | .ok thought => some thought
    | .error _ => tryPatterns H text tool_calls ps

/-- `ThoughtParser::apply_fallback`. -/
def apply_fallback (strategy : FallbackStrategy) (text : String) :
    Except ThoughtParseError Thought :=
  match strategy with
  | .TreatAsThought => .ok (Thought.new text)
  | .TreatAsFinalAnswer => .ok (Thought.final_answer text)
  | .RequestClarification => .error .ClarificationNeeded

/-- `ThoughtParser::parse`. -/
def ThoughtParser.parse (P : ThoughtParser) (H : RegexOracle)
    (llm_response : String) (tool_calls : List LLMToolCall) :
    Except ThoughtParseError Thought :=
  let trimmed := rustTrim llm_response
  if rustIsEmpty trimmed then .error .EmptyResponse
  else
    match tryPatterns H trimmed tool_calls P.patterns with
    | some thought => .ok thought
    | none => apply_fallback P.fallback_strategy trimmed

/-! ### A concrete JSON reader for evaluating the parser on literal inputs

`serde_json::from_str` is an external crate.  For evaluating the embedded
parser on the concrete inputs appearing in this file, `miniJsonFromStr`
implements the flat fragment of JSON those inputs use: one object whose
values are escape-free strings, booleans or null.  On every input it
accepts it returns exactly the value `serde_json::from_str` returns. -/

/-- Opening brace character. -/
def lbraceChar : Char := Char.ofNat 123

/-- Closing brace character. -/
def rbraceChar : Char := Char.ofNat 125

/-- Skip JSON whitespace. -/
def skipWs (cs : List Char) : List Char :=
  cs.dropWhile fun c => c = ' ' || c = '\n' || c = '\t' || c = '\r'

/-- Read the body of a JSON string after the opening quote; no escapes. -/
def miniStrBody : List Char → List Char → Option (String × List Char)
  | [], _ => none
  | c :: rest, acc =>
    if c = '"' then some (String.mk acc.reverse, rest)
    else if c = '\\' then none
    else miniStrBody rest (c :: acc)

/-- Read one JSON value (string, boolean or null). -/
def miniValue : List Char → Option (Json × List Char)
  | '"' :: rest => (miniStrBody rest []).map fun p => (Json.str p.1, p.2)
  | 't' :: 'r' :: 'u' :: 'e' :: rest => some (.bool true, rest)
  | 'f' :: 'a' :: 'l' :: 's' :: 'e' :: rest => some (.bool false, rest)
  | 'n' :: 'u' :: 'l' :: 'l' :: rest => some (.null, rest)
  | _ => none

/-- Read the members of a JSON object up to and including the closing
brace. -/
def miniMembers : Nat → List Char → Option (List (String × Json) × List Char)
  | 0, _ => none
  | fuel + 1, cs =>
    match skipWs cs with
    | '"' :: rest =>
      match miniStrBody rest [] with
      | none => none
      | some (key, r1) =>
        match skipWs r1 with
        | ':' :: r2 =>
          match miniValue (skipWs r2) with
          | none => none
          | some (v, r3) =>
            match skipWs r3 with
            | ',' :: r4 =>
              (miniMembers fuel r4).map fun p => ((key, v) :: p.1, p.2)
            | c :: r4 =>
              if c = rbraceChar then some ([(key, v)], r4) else none
            | [] => none
        | _ => none
    | _ => none

/-- Concrete model of `serde_json::from_str` on the flat JSON fragment
used by the literal inputs in this file. -/
def miniJsonFromStr (s : String) : Option Json :=
  match skipWs s.data with
  | c :: rest =>
    if c = lbraceChar then
      match miniMembers (rest.length + 1) rest with
      | some (kvs, r) => if skipWs r = [] then some (.obj kvs) else none
      | none => none
    else none
  | [] => none

/-- A concrete `RegexOracle` for evaluating the parser on the literal
inputs of this file.  Each component agrees with the corresponding regex
(or with `serde_json`) of the source on those inputs: the inputs contain
no fenced code block (`jsonBlock` = none), no `Final Answer:` / `Answer:`
marker (`finalAnswerOf` = none), no `Thought:` / `Reasoning:` /
`Analysis:` marker (`thoughtSectionOf` = none), no `Action:` marker
(`reasoningUpToMarker` = trimmed text, `plannedActionsOf` = no actions),
and their JSON lies in the fragment read exactly by `miniJsonFromStr`. -/
def concreteOracle : RegexOracle :=
  { fromStr := miniJsonFromStr
  , jsonBlock := fun _ => none
  , finalAnswerOf := fun _ => none
  , thoughtSectionOf := fun _ => none
  , reasoningUpToMarker := fun s => rustTrim s
  , plannedActionsOf := fun _ => [] }

/-- The concrete LLM response refuting claim C2: a JSON object carrying
both an `action` and `final_answer: true`. -/
def c2Input : String :=
  "\x7b\"thought\":\"check\",\"action\":\"ping\",\"final_answer\":true\x7d"

/-! ## Claim C2 — planned actions versus the final-answer flag -/

/-- C2 counterexample: on the response
`{"thought":"check","action":"ping","final_answer":true}` (no surfaced
tool calls) the parser returns `Ok` with one planned action AND
`is_final_answer = true` — the JSON-structured pattern does not force the
flag to false when planned actions exist. -/
theorem parse_action_with_final_flag_counterexample :
    ThoughtParser.parse ThoughtParser.new concreteOracle c2Input [] =
      .ok { reasoning := "check"
          , confidence := none
          , planned_actions :=
              [{ tool_name := "ping", description := "Execute action", arguments := none }]
          , is_final_answer := true
          , raw_content := c2Input }
    ∧ ([{ tool_name := "ping", description := "Execute action"
        , arguments := none }] : List PlannedAction) ≠ [] := by
  exact ⟨rfl, by simp⟩

/-- A thought produced by the tool-calls-inline pattern never carries the
final-answer flag (it is `is_final && tool_calls.is_empty()` in a branch
where the tool calls are non-empty). -/
lemma parse_tool_calls_inline_not_final (H : RegexOracle) (text : String)
    (calls : List LLMToolCall) (t : Thought)
    (h : parse_tool_calls_inline H text calls = .ok t) :
    t.is_final_answer = false := by
  unfold parse_tool_calls_inline at h
  by_cases hc : calls.isEmpty
  · simp [hc] at h
  · simp [hc] at h
    subst h
    simp [hc]

/-- A thought produced by the ReAct-classic pattern either has no planned
actions (final-answer branch) or has the flag false. -/
lemma parse_react_classic_shape (H : RegexOracle) (text : String) (t : Thought)
    (h : parse_react_classic H text = .ok t) :
    t.planned_actions = [] ∨ t.is_final_answer = false := by
  unfold parse_react_classic at h
  rcases hf : H.finalAnswerOf text with _ | answer <;> simp [hf] at h
  · rcases hr : H.thoughtSectionOf text with _ | thought <;>
      simp only [hr] at h <;> split at h <;>
      simp_all [Thought.final_answer] <;> subst h <;> simp
  · subst h
    simp [Thought.final_answer]

/-- A thought produced by the free-form pattern has no planned actions. -/
lemma parse_free_form_no_actions (H : RegexOracle) (text : String) (t : Thought)
    (h : parse_free_form H text = .ok t) : t.planned_actions = [] := by
  unfold parse_free_form at h
  simp only [Except.ok.injEq] at h
  subst h
  rfl

/-- A thought produced by the fallback has no planned actions. -/
lemma apply_fallback_no_actions (fb : FallbackStrategy) (text : String)
    (t : Thought) (h : apply_fallback fb text = .ok t) :
    t.planned_actions = [] := by
  cases fb <;> simp [apply_fallback] at h <;> subst h <;>
    simp [Thought.new, Thought.final_answer]

/-- C2 (amended): whenever `ThoughtParser::new().parse` returns `Ok` with a
non-empty `planned_actions` AND `is_final_answer = true`, the thought came
from the JSON-structured pattern (i.e. `parse_json_structured` succeeded on
the trimmed response with that very thought).  Every other pattern — and
the fallback — forces the flag to false whenever planned actions exist;
the JSON pattern alone copies the object's true `final_answer` field next
to an extracted `action`. -/
theorem parse_actions_final_only_from_json (H : RegexOracle) (text : String)
    (calls : List LLMToolCall) (t : Thought)
    (hok : ThoughtParser.parse ThoughtParser.new H text calls = .ok t)
    (hact : t.planned_actions ≠ [])
    (hfin : t.is_final_answer = true) :
    parse_json_structured H (rustTrim text) = .ok t := by
  unfold ThoughtParser.parse at hok
  by_cases he : rustIsEmpty (rustTrim text)
  · simp [he] at hok
  · simp only [he, if_false, Bool.false_eq_true] at hok
    simp only [ThoughtParser.new, tryPatterns, try_pattern] at hok
    rcases h1 : parse_tool_calls_inline H (rustTrim text) calls with e1 | t1 <;>
      rw [h1] at hok
    · rcases h2 : parse_json_structured H (rustTrim text) with e2 | t2 <;>
        rw [h2] at hok
      · rcases h3 : parse_react_classic H (rustTrim text) with e3 | t3 <;>
          rw [h3] at hok
        · rcases h4 : parse_free_form H (rustTrim text) with e4 | t4 <;>
            rw [h4] at hok
          · simp [apply_fallback] at hok
            rw [← hok] at hact
            simp [Thought.new] at hact
          · simp only [Except.ok.injEq] at hok
            subst hok
            exact absurd (parse_free_form_no_actions H _ t4 h4) hact
        · simp only [Except.ok.injEq] at hok
          subst hok
          rcases parse_react_classic_shape H _ t3 h3 with hsh | hsh
          · exact absurd hsh hact
          · simp [hfin] at hsh
      · simp only [Except.ok.injEq] at hok
        subst hok
        rfl
    · simp only [Except.ok.injEq] at hok
      subst hok
      have := parse_tool_calls_inline_not_final H _ calls t1 h1
      rw [hfin] at this
      exact absurd this (by simp)

/-- Witness for the amended C2 at the concrete counterexample input: the
parser output there is indeed the output of the JSON-structured pattern. -/
theorem parse_actions_final_only_from_json_witness :
    parse_json_structured concreteOracle (rustTrim c2Input) =
      .ok { reasoning := "check"
          , confidence := none
          , planned_actions :=
              [{ tool_name := "ping", description := "Execute action", arguments := none }]
          , is_final_answer := true
          , raw_content := c2Input } :=
  parse_actions_final_only_from_json concreteOracle c2Input [] _ rfl (by simp) rfl

/-! ## `observation.rs` — the observation processor

`ToolCall` / `ToolCallResult` live in `toolkit.rs`, which is not among the
provided sources; their field shapes are fixed by their uses in
`engine.rs` / `observation.rs` (`result.success : bool`,
`result.output : serde_json::Value`, `result.error : Option<String>`,
`result.duration : Duration`; `call.id : Uuid`, `call.tool_name : String`)
and by §4.5 of the specification.  `Uuid` is modelled as `Nat`. -/

/-- `ToolCallResult` (toolkit.rs, shape from its uses and §4.5). -/
structure ToolCallResult where
  success : Bool
  output : Json
  error : Option String
  duration : Nat

/-- `ToolCall` (toolkit.rs, shape from its uses). -/
structure ToolCall where
  id : Nat
  tool_name : String
  arguments : Json
  result : Option ToolCallResult
  timestamp : Nat
  session_id : Option Nat

/-- `ObservationKind` (observation.rs); `completeness : f32` carried as
`Rat`. -/
inductive ObservationKind where
  | Success
  | Error (code : Option String) (recoverable : Bool)
  | Timeout
  | PartialResult (completeness : Rat)
deriving DecidableEq

/-- `ObservationMetadata` (observation.rs). -/
structure ObservationMetadata where
  tokens_estimated : Option Nat
  truncated : Bool
  original_length : Nat
deriving DecidableEq

/-- `Observation` (observation.rs). -/
structure Observation where
  tool_name : String
  tool_call_id : Nat
  kind : ObservationKind
  content : String
  structured_data : Option Json
  duration : Nat
  metadata : ObservationMetadata

/-- `ObservationSummary` (observation.rs). -/
structure ObservationSummary where
  observations : List Observation
  all_successful : Bool
  has_recoverable_errors : Bool
  total_duration : Nat
  formatted_for_llm : String

/-- `TruncationStrategy` (observation.rs).  The `f32` `head_ratio` is
carried as `Rat` (named `head_frac` here); at the values 0, 0.6 and 1
exercised below, `f32` arithmetic on it is exact. -/
inductive TruncationStrategy where
  | HeadTail (head_frac : Rat)
  | HeadOnly
  | TailOnly

/-- `TruncationStrategy::default()` is `HeadTail { head_ratio: 0.6 }`. -/
def TruncationStrategy.default : TruncationStrategy := .HeadTail (3 / 5)

/-- `ObservationProcessor` (observation.rs). -/
structure ObservationProcessor where
  max_observation_tokens : Nat
  truncation_strategy : TruncationStrategy

/-- `ObservationProcessor::new`. -/
def ObservationProcessor.new (max_tokens : Nat) : ObservationProcessor :=
  { max_observation_tokens := max_tokens
  , truncation_strategy := TruncationStrategy.default }

/-- `ObservationProcessor::with_truncation`. -/
def ObservationProcessor.with_truncation (max_tokens : Nat)
    (strategy : TruncationStrategy) : ObservationProcessor :=
  { max_observation_tokens := max_tokens, truncation_strategy := strategy }

/-- `ObservationProcessor::estimate_tokens`:
`(char_count as f32 / 4.0).ceil() as usize`, i.e. `⌈chars/4⌉`.  The `f32`
round-trip is exact for every count below `2^24`. -/
def ObservationProcessor.estimate_tokens (_P : ObservationProcessor)
    (text : String) : Nat :=
  (charLen text + 3) / 4

/-- Marker appended by `HeadOnly` truncation. -/
def headMarker : String := "\n...[truncated]"

/-- Marker prepended by `TailOnly` truncation. -/
def tailMarker : String := "...[truncated]\n"

/-- Marker inserted by `HeadTail` truncation. -/
def middleMarker : String := "\n\n...[middle section truncated]...\n\n"

/-- `ObservationProcessor::truncate_content`.  `content.chars().take(n)` /
`.skip(n)` become `List.take` / `List.drop` on the character list;
`(max_chars as f32 * head_ratio) as usize` becomes the `Rat` floor (exact
at the ratios 0, 0.6 and 1 exercised in this file, for any realistic
`max_chars < 2^24`); `saturating_sub` is `Nat` subtraction. -/
def ObservationProcessor.truncate_content (P : ObservationProcessor)
    (content : String) : String :=
  let max_chars := P.max_observation_tokens * 4
  if byteLen content ≤ max_chars then content
  else
    match P.truncation_strategy with
    | .HeadOnly =>
      String.mk (content.data.take max_chars) ++ headMarker
    | .TailOnly =>
      let skip_count := charLen content - max_chars
      tailMarker ++ String.mk (content.data.drop skip_count)
    | .HeadTail head_frac =>
      let clamped := min (max head_frac 0) 1
      let head_chars := (Rat.floor ((max_chars : Rat) * clamped)).toNat
      let tail_chars := max_chars - head_chars
      let total_chars := charLen content
      let skip_count := total_chars - tail_chars
      String.mk (content.data.take head_chars) ++ middleMarker ++
        String.mk (content.data.drop skip_count)

/-- The `recoverable_patterns` array of `is_recoverable_error`. -/
def recoverable_patterns : List String :=
  [ "not found", "does not exist", "no such file", "permission denied"
  , "timeout", "connection refused", "network error", "rate limit" ]

/-- The `non_recoverable_patterns` array of `is_recoverable_error`. -/
def non_recoverable_patterns : List String :=
  [ "invalid syntax", "parse error", "malformed", "corrupted", "incompatible" ]

/-- `ObservationProcessor::is_recoverable_error`. -/
def ObservationProcessor.is_recoverable_error (_P : ObservationProcessor)
    (error_msg : String) : Bool :=
  let error_lower := rustToLowercase error_msg
  if non_recoverable_patterns.any fun p => strContains error_lower p then false
  else recoverable_patterns.any fun p => strContains error_lower p

/-- Index (in characters) of the first occurrence of `pat` in `hay`;
models `str::find` for an ASCII pattern (byte and character indices of
ASCII-delimited occurrences coincide up to the crossing argument given at
`containsSub`, and the source only slices at these boundaries). -/
def findSubIdx (pat : List Char) : List Char → Option Nat
  | [] => if subAt pat [] then some 0 else none
  | h :: hs =>
    if subAt pat (h :: hs) then some 0
    else (findSubIdx pat hs).map (· + 1)

/-- `ObservationProcessor::extract_error_code`. -/
def extract_error_code (error_msg : String) : Option String :=
  let pattern1 : Option String :=
    match findSubIdx "Error ".data error_msg.data with
    | some idx =>
      let after_error := error_msg.data.drop (idx + 6)
      match findSubIdx [':'] after_error with
      | some colon_idx =>
        let code := rustTrim (String.mk (after_error.take colon_idx))
        if rustIsEmpty code then none else some code
      | none => none
    | none => none
  match pattern1 with
  | some code => some code
  | none =>
    match findSubIdx [':'] error_msg.data with
    | some colon_idx =>
      let potential_code := rustTrim (String.mk (error_msg.data.take colon_idx))
      if byteLen potential_code ≤ 20 && !strContains potential_code " " then
        some potential_code
      else none
    | none => none

/-- `ObservationProcessor::classify_result`. -/
def ObservationProcessor.classify_result (P : ObservationProcessor)
    (result : ToolCallResult) : ObservationKind :=
  if result.success then .Success
  else
    let error_msg := result.error.getD ""
    .Error (extract_error_code error_msg) (P.is_recoverable_error error_msg)

/-- `ObservationProcessor::extract_content`.  `pretty` models
`serde_json::to_string_pretty` (external crate; its `Err` branch is
unreachable for in-memory `Value`s, so the model is total); no claim
under study depends on its output, so it is quantified over. -/
def extract_content (pretty : Json → String) (result : ToolCallResult) : String :=
  if result.success then
    match result.output with
    | .str s => s
    | .null => "No output"
    | other => pretty other
  else
    "Error: " ++ result.error.getD "Unknown error"

/-- `ObservationProcessor::process`.  The `(content, truncated)` pair of
the source is inlined into the two branches of its `if`. -/
def ObservationProcessor.process (P : ObservationProcessor)
    (pretty : Json → String) (result : ToolCallResult) (call : ToolCall) :
    Observation :=
  let kind := P.classify_result result
  let raw_content := extract_content pretty result
  let original_length := byteLen raw_content
  if P.estimate_tokens raw_content > P.max_observation_tokens then
    { tool_name := call.tool_name
    , tool_call_id := call.id
    , kind := kind
    , content := P.truncate_content raw_content
    , structured_data := some result.output
    , duration := result.duration
    , metadata :=
      { tokens_estimated := some (P.estimate_tokens (P.truncate_content raw_content))
      , truncated := true
      , original_length := original_length } }
  else
    { tool_name := call.tool_name
    , tool_call_id := call.id
    , kind := kind
    , content := raw_content
    , structured_data := some result.output
    , duration := result.duration
    , metadata :=
      { tokens_estimated := some (P.estimate_tokens raw_content)
      , truncated := false
      , original_length := original_length } }

/-- Status line of `ObservationProcessor::format_for_context`.  `fmtSecs`
renders `{:.2}` of a duration in seconds, `fmtPct` renders `{:.0}` of
`completeness * 100.0`; both are float formatting, quantified over. -/
def observationStatusLine (fmtSecs : Nat → String) (fmtPct : Rat → String)
    (obs : Observation) : String :=
  match obs.kind with
  | .Success => "[SUCCESS in " ++ fmtSecs obs.duration ++ "s]"
  | .Error code recoverable =>
    "[ERROR: " ++ code.getD "UNKNOWN" ++
      (if recoverable then " (recoverable)" else "") ++
      "] (took " ++ fmtSecs obs.duration ++ "s)"
  | .Timeout => "[TIMEOUT after " ++ fmtSecs obs.duration ++ "s]"
  | .PartialResult completeness =>
    "[PARTIAL RESULT: " ++ fmtPct (completeness * 100) ++ "% complete in " ++
      fmtSecs obs.duration ++ "s]"

/-- One block of `format_for_context` for a single observation. -/
def observationBlock (fmtSecs : Nat → String) (fmtPct : Rat → String)
    (obs : Observation) : String :=
  "Observation from " ++ obs.tool_name ++ ":\n" ++
    observationStatusLine fmtSecs fmtPct obs ++ "\n" ++ obs.content ++
    (if obs.metadata.truncated then
      "\n\n[Note: Output truncated from " ++
        toString obs.metadata.original_length ++ " to " ++
        toString (byteLen obs.content) ++ " characters for brevity]"
     else "")

/-- `ObservationProcessor::format_for_context` (the `idx > 0` separator
loop is exactly an interleaving with `"\n\n"`). -/
def format_for_context (fmtSecs : Nat → String) (fmtPct : Rat → String)
    (observations : List Observation) : String :=
  String.intercalate "\n\n" (observations.map (observationBlock fmtSecs fmtPct))

/-- `ObservationProcessor::summarize`. -/
def ObservationProcessor.summarize (_P : ObservationProcessor)
    (fmtSecs : Nat → String) (fmtPct : Rat → String)
    (observations : List Observation) : ObservationSummary :=
  { observations := observations
  , all_successful := observations.all fun o =>
      match o.kind with | .Success => true | _ => false
  , has_recoverable_errors := observations.any fun o =>
      match o.kind with | .Error _ true => true | _ => false
  , total_duration := (observations.map Observation.duration).sum
  , formatted_for_llm := format_for_context fmtSecs fmtPct observations }

/-! ## Claim C6 — error recoverability classification -/

/-- C6: for every failed tool result, the observation's `recoverable` bit
is false whenever the lower-cased error message contains a
non-recoverable pattern (this list takes precedence), true when it
contains none of those but contains a recoverable pattern, and false
otherwise; and `classify_result` on a failed result produces exactly
`Error` with that bit and the extracted code. -/
theorem classify_recoverable_matches_spec (P : ObservationProcessor) :
    (∀ (output : Json) (err : Option String) (dur : Nat),
      P.classify_result { success := false, output := output, error := err, duration := dur } =
        .Error (extract_error_code (err.getD "")) (P.is_recoverable_error (err.getD "")))
    ∧ (∀ msg : String,
        P.is_recoverable_error msg = true ↔
          ((∃ p ∈ recoverable_patterns, strContains (rustToLowercase msg) p = true)
            ∧ ∀ p ∈ non_recoverable_patterns, strContains (rustToLowercase msg) p = false)) := by
  constructor
  · intro output err dur
    rfl
  · intro msg
    unfold ObservationProcessor.is_recoverable_error
    by_cases hn : non_recoverable_patterns.any fun p => strContains (rustToLowercase msg) p
    · simp only [hn, if_true]
      simp only [List.any_eq_true] at hn
      obtain ⟨p, hp, hc⟩ := hn
      constructor
      · intro hfalse
        exact absurd hfalse (by simp)
      · rintro ⟨-, hall⟩
        rw [hall p hp] at hc
        exact absurd hc (by simp)
    · rw [if_neg hn]
      simp only [List.any_eq_true] at hn ⊢
      push_neg at hn
      constructor
      · intro hrec
        refine ⟨hrec, fun p hp => ?_⟩
        simpa using hn p hp
      · rintro ⟨hrec, -⟩
        exact hrec

/-! ## Claim C3 — truncation and the length metadata -/

/-- Every character encodes to at least one UTF-8 byte, so the character
count never exceeds the byte length. -/
lemma charLen_le_byteLen (s : String) : charLen s ≤ byteLen s := by
  unfold charLen byteLen
  induction s.data with
  | nil => simp
  | cons c cs ih =>
    have := Char.utf8Size_pos c
    simp only [List.map_cons, List.sum_cons, List.length_cons]
    omega

/-- Character count distributes over string append. -/
lemma charLen_append (a b : String) : charLen (a ++ b) = charLen a + charLen b := by
  unfold charLen
  cases a with
  | mk da =>
    cases b with
    | mk db => simp [String.data_append]

/-- Byte length of the marker each truncation strategy inserts. -/
def markerLen : TruncationStrategy → Nat
  | .HeadTail _ => 36
  | .HeadOnly => 15
  | .TailOnly => 15

/-- Bridge between the executable `Rat.floor` and `⌊·⌋`. -/
lemma ratFloor_eq_intFloor (q : Rat) : Rat.floor q = ⌊q⌋ := by
  rw [Rat.floor_def, Rat.floor_def']

/-- The `head_chars` computation never exceeds `max_chars`: the clamped
ratio is at most one. -/
lemma clampFloor_le (n : Nat) (r : Rat) :
    (Rat.floor ((n : Rat) * min (max r 0) 1)).toNat ≤ n := by
  rw [ratFloor_eq_intFloor]
  have h0 : (0 : Rat) ≤ min (max r 0) 1 := le_min (le_max_right r 0) (by norm_num)
  have h1 : min (max r 0) 1 ≤ 1 := min_le_right _ _
  have hle : (n : Rat) * min (max r 0) 1 ≤ (n : Rat) := by nlinarith [Nat.cast_nonneg (α := Rat) n]
  have h2 : ⌊(n : Rat) * min (max r 0) 1⌋ ≤ (n : Int) := by
    calc ⌊(n : Rat) * min (max r 0) 1⌋ ≤ ⌊(n : Rat)⌋ := Int.floor_le_floor hle
    _ = (n : Int) := Int.floor_natCast n
  omega

/-- The `head_chars` computation at ratio 0. -/
lemma clampFloor_zero (n : Nat) :
    (Rat.floor ((n : Rat) * min (max (0 : Rat) 0) 1)).toNat = 0 := by
  rw [ratFloor_eq_intFloor]
  norm_num

/-- The `head_chars` computation at ratio 1. -/
lemma clampFloor_one (n : Nat) :
    (Rat.floor ((n : Rat) * min (max (1 : Rat) 0) 1)).toNat = n := by
  rw [ratFloor_eq_intFloor]
  norm_num

/-- Character-count bound on every truncation output: at most the
character budget plus the inserted marker. -/
lemma truncate_content_charLen (P : ObservationProcessor) (c : String)
    (h : P.max_observation_tokens * 4 < byteLen c) :
    charLen (P.truncate_content c) ≤
      P.max_observation_tokens * 4 + markerLen P.truncation_strategy := by
  unfold ObservationProcessor.truncate_content
  rw [if_neg (by omega)]
  cases hst : P.truncation_strategy with
  | HeadOnly =>
    have hlen : c.length = charLen c := rfl
    simp only [charLen_append, markerLen]
    unfold charLen
    simp only [List.length_take]
    have hmk : charLen headMarker = 15 := by decide
    unfold charLen at hmk
    omega
  | TailOnly =>
    have hlen : c.length = charLen c := rfl
    simp only [charLen_append, markerLen]
    unfold charLen
    simp only [List.length_drop]
    have hmk : charLen tailMarker = 15 := by decide
    unfold charLen at hmk
    omega
  | HeadTail hf =>
    have hlen : c.length = charLen c := rfl
    simp only [charLen_append, markerLen]
    have hhead := clampFloor_le (P.max_observation_tokens * 4) hf
    unfold charLen
    simp only [List.length_take, List.length_drop]
    have hmk : charLen middleMarker = 36 := by decide
    unfold charLen at hmk
    omega

/-- C3 (amended): whenever `truncated = false`, `original_length` equals
the content's byte length; whenever `truncated = true`, `original_length`
exceeds the character budget `4 * max_tokens` while the truncated content
holds at most `4 * max_tokens + markerLen` characters — so the content may
exceed `original_length`, but only by the marker overhead. -/
theorem process_length_metadata (P : ObservationProcessor)
    (pretty : Json → String) (result : ToolCallResult) (call : ToolCall) :
    ((P.process pretty result call).metadata.truncated = false →
      (P.process pretty result call).metadata.original_length =
        byteLen (P.process pretty result call).content)
    ∧ ((P.process pretty result call).metadata.truncated = true →
        P.max_observation_tokens * 4 <
            (P.process pretty result call).metadata.original_length
          ∧ charLen (P.process pretty result call).content ≤
              P.max_observation_tokens * 4 + markerLen P.truncation_strategy) := by
  unfold ObservationProcessor.process
  by_cases hgt :
      P.estimate_tokens (extract_content pretty result) > P.max_observation_tokens
  · rw [if_pos hgt]
    refine ⟨fun hfalse => by simp at hfalse, fun _ => ?_⟩
    have hchars : P.max_observation_tokens * 4 <
        charLen (extract_content pretty result) := by
      unfold ObservationProcessor.estimate_tokens at hgt
      omega
    have hbytes : P.max_observation_tokens * 4 <
        byteLen (extract_content pretty result) :=
      lt_of_lt_of_le hchars (charLen_le_byteLen _)
    exact ⟨hbytes, truncate_content_charLen P _ hbytes⟩
  · rw [if_neg hgt]
    exact ⟨fun _ => rfl, fun htrue => by simp at htrue⟩

/-- The over-budget successful result used to refute C3 as stated:
41 characters against a 10-token (40-character) budget. -/
def c3Result : ToolCallResult :=
  { success := true
  , output := .str (String.mk (List.replicate 41 'A'))
  , error := none
  , duration := 0 }

/-- A minimal tool call for driving the processor on concrete inputs. -/
def demoCall : ToolCall :=
  { id := 0, tool_name := "demo", arguments := .null, result := none
  , timestamp := 0, session_id := none }

/-- C3 counterexample: with `max_tokens = 10` and `HeadOnly` truncation, a
41-character output is truncated to 40 characters plus the 15-byte
marker, i.e. 55 bytes — `original_length` (41) is strictly SMALLER than
the content length (55), refuting `original_length ≥ content.length`. -/
theorem process_shrink_counterexample :
    ((ObservationProcessor.with_truncation 10 .HeadOnly).process
        (fun _ => "") c3Result demoCall).metadata.original_length <
      byteLen ((ObservationProcessor.with_truncation 10 .HeadOnly).process
        (fun _ => "") c3Result demoCall).content
    ∧ ((ObservationProcessor.with_truncation 10 .HeadOnly).process
        (fun _ => "") c3Result demoCall).metadata.truncated = true := by
  decide

/-- Witness for the amended C3 at the same concrete input: `truncated` is
true, `original_length` (41) exceeds the 40-character budget, and the
content stays within budget + marker. -/
theorem process_length_metadata_witness :
    ((ObservationProcessor.with_truncation 10 .HeadOnly).process
        (fun _ => "") c3Result demoCall).metadata.truncated = true
    ∧ (10 * 4 <
        ((ObservationProcessor.with_truncation 10 .HeadOnly).process
          (fun _ => "") c3Result demoCall).metadata.original_length
      ∧ charLen ((ObservationProcessor.with_truncation 10 .HeadOnly).process
          (fun _ => "") c3Result demoCall).content ≤
          10 * 4 + markerLen (ObservationProcessor.with_truncation 10 .HeadOnly).truncation_strategy) :=
  ⟨by decide,
    (process_length_metadata (ObservationProcessor.with_truncation 10 .HeadOnly)
      (fun _ => "") c3Result demoCall).2 (by decide)⟩

/-! ## Claim C7 — truncation at the ratio extremes -/

/-- `HeadTail {head_ratio = 0}` on over-budget content: no head is kept;
the output is the HeadTail marker followed by the kept tail. -/
lemma truncate_headtail_zero (mt : Nat) (c : String) (h : mt * 4 < byteLen c) :
    (ObservationProcessor.with_truncation mt (.HeadTail 0)).truncate_content c =
      middleMarker ++ String.mk (c.data.drop (charLen c - mt * 4)) := by
  unfold ObservationProcessor.truncate_content
  rw [if_neg (by simp [ObservationProcessor.with_truncation]; omega)]
  simp only [ObservationProcessor.with_truncation]
  rw [clampFloor_zero]
  simp only [List.take_zero, Nat.sub_zero]
  cases hm : middleMarker with
  | mk dm => simp [String.ext_iff, String.data_append]

/-- `TailOnly` on over-budget content. -/
lemma truncate_tail_only (mt : Nat) (c : String) (h : mt * 4 < byteLen c) :
    (ObservationProcessor.with_truncation mt .TailOnly).truncate_content c =
      tailMarker ++ String.mk (c.data.drop (charLen c - mt * 4)) := by
  unfold ObservationProcessor.truncate_content
  rw [if_neg (by simp [ObservationProcessor.with_truncation]; omega)]
  rfl

/-- `HeadTail {head_ratio = 1}` on over-budget content: the whole budget
goes to the head; the kept tail is empty. -/
lemma truncate_headtail_one (mt : Nat) (c : String) (h : mt * 4 < byteLen c) :
    (ObservationProcessor.with_truncation mt (.HeadTail 1)).truncate_content c =
      String.mk (c.data.take (mt * 4)) ++ middleMarker := by
  unfold ObservationProcessor.truncate_content
  rw [if_neg (by simp [ObservationProcessor.with_truncation]; omega)]
  simp only [ObservationProcessor.with_truncation]
  rw [clampFloor_one]
  simp only [Nat.sub_self, Nat.sub_zero, List.drop_length]
  simp [String.ext_iff, String.data_append]
  exact Nat.le_of_eq rfl

/-- `HeadOnly` on over-budget content. -/
lemma truncate_head_only (mt : Nat) (c : String) (h : mt * 4 < byteLen c) :
    (ObservationProcessor.with_truncation mt .HeadOnly).truncate_content c =
      String.mk (c.data.take (mt * 4)) ++ headMarker := by
  unfold ObservationProcessor.truncate_content
  rw [if_neg (by simp [ObservationProcessor.with_truncation]; omega)]
  rfl

/-- The 5-character content used against a 1-token (4-character) budget. -/
def c7Content : String := String.mk (List.replicate 5 'A')

/-- C7 counterexample: on `"AAAAA"` with a 1-token budget, truncation with
`HeadTail {head_ratio = 0}` yields the HeadTail marker + `"AAAA"`, while
`TailOnly` yields its own marker + `"AAAA"`: the two contents are NOT
equal (the markers differ), refuting the claimed equality. -/
theorem truncate_ratio_zero_ne_tail_counterexample :
    (ObservationProcessor.with_truncation 1 (.HeadTail 0)).truncate_content c7Content ≠
      (ObservationProcessor.with_truncation 1 .TailOnly).truncate_content c7Content := by
  rw [truncate_headtail_zero 1 c7Content (by decide),
      truncate_tail_only 1 c7Content (by decide)]
  decide

/-- C7 (amended): on over-budget content the `HeadTail {0}` and `TailOnly`
outputs keep exactly the same trailing characters and the
`HeadTail {1}` and `HeadOnly` outputs keep exactly the same leading
characters; the outputs differ only in the inserted marker text
(`middleMarker` versus `tailMarker` / `headMarker`). -/
theorem truncate_ratio_extremes (mt : Nat) (c : String) (h : mt * 4 < byteLen c) :
    ((ObservationProcessor.with_truncation mt (.HeadTail 0)).truncate_content c =
        middleMarker ++ String.mk (c.data.drop (charLen c - mt * 4))
      ∧ (ObservationProcessor.with_truncation mt .TailOnly).truncate_content c =
          tailMarker ++ String.mk (c.data.drop (charLen c - mt * 4)))
    ∧ ((ObservationProcessor.with_truncation mt (.HeadTail 1)).truncate_content c =
        String.mk (c.data.take (mt * 4)) ++ middleMarker
      ∧ (ObservationProcessor.with_truncation mt .HeadOnly).truncate_content c =
          String.mk (c.data.take (mt * 4)) ++ headMarker) :=
  ⟨⟨truncate_headtail_zero mt c h, truncate_tail_only mt c h⟩,
    ⟨truncate_headtail_one mt c h, truncate_head_only mt c h⟩⟩

/-- Witness for the amended C7 at `"AAAAA"` with a 1-token budget. -/
theorem truncate_ratio_extremes_witness :
    1 * 4 < byteLen c7Content
    ∧ (((ObservationProcessor.with_truncation 1 (.HeadTail 0)).truncate_content c7Content =
          middleMarker ++ String.mk (c7Content.data.drop (charLen c7Content - 1 * 4))
        ∧ (ObservationProcessor.with_truncation 1 .TailOnly).truncate_content c7Content =
            tailMarker ++ String.mk (c7Content.data.drop (charLen c7Content - 1 * 4)))
      ∧ ((ObservationProcessor.with_truncation 1 (.HeadTail 1)).truncate_content c7Content =
          String.mk (c7Content.data.take (1 * 4)) ++ middleMarker
        ∧ (ObservationProcessor.with_truncation 1 .HeadOnly).truncate_content c7Content =
            String.mk (c7Content.data.take (1 * 4)) ++ headMarker)) :=
  ⟨by decide, truncate_ratio_extremes 1 c7Content (by decide)⟩

/-! ## `gatherer.rs` — the composite context gatherer -/

/-- `ContextPriority` (gatherer.rs). -/
inductive ContextPriority where
  | Critical
  | High
  | Medium
  | Low
  | Optional
deriving DecidableEq

/-- `ContextPriority::value` — the explicit enum discriminants, which also
drive the derived `Ord` used by the sorts. -/
def ContextPriority.value : ContextPriority → Nat
  | .Critical => 100
  | .High => 75
  | .Medium => 50
  | .Low => 25
  | .Optional => 0

/-- `ContextChunk` (gatherer.rs).  The `HashMap<String, String>` metadata
is carried as an association list; no claim depends on map semantics. -/
structure ContextChunk where
  content : String
  source : String
  priority : ContextPriority
  token_count : Nat
  metadata : List (String × String)

/-- `estimate_tokens` (gatherer.rs): `text.len().div_ceil(4)` — note this
one is BYTE-based, unlike the observation processor's character-based
estimate. -/
def estimateTokensCtx (text : String) : Nat := (byteLen text + 3) / 4

/-- `ContextChunk::new`. -/
def ContextChunk.new (content source : String) (priority : ContextPriority) :
    ContextChunk :=
  { content := content
  , source := source
  , priority := priority
  , token_count := estimateTokensCtx content
  , metadata := [] }

/-- `GatheredContext` (gatherer.rs). -/
structure GatheredContext where
  chunks : List ContextChunk
  total_tokens : Nat
  sources : List String

/-- `GatheredContext::empty`. -/
def GatheredContext.empty : GatheredContext :=
  { chunks := [], total_tokens := 0, sources := [] }

/-- `GatheredContext::from_chunks`.  `sort_by(|a, b| b.priority.cmp(&a.priority))`
is a stable descending sort on the priority discriminant, modelled by the
stable `mergeSort`.  The `HashSet` source de-duplication iterates in an
unspecified order; it is modelled by `eraseDups` (no claim depends on the
order of `sources`). -/
def GatheredContext.from_chunks (chunks : List ContextChunk) : GatheredContext :=
  let sorted := chunks.mergeSort fun a b => b.priority.value ≤ a.priority.value
  { chunks := sorted
  , total_tokens := (sorted.map ContextChunk.token_count).sum
  , sources := (sorted.map ContextChunk.source).eraseDups }

/-- A `dyn ContextGatherer` trait object: its `gather` method (an async
call returning `anyhow::Result`, modelled as `Except` over the message),
its `priority()` and its `name()`. -/
structure ContextGatherer where
  gather : String → Nat → Nat → Except String (List ContextChunk)
  priority : ContextPriority
  name : String

/-- `CompositeContextGatherer` (gatherer.rs). -/
structure CompositeContextGatherer where
  gatherers : List ContextGatherer
  token_budget : Nat

/-- `CompositeContextGatherer::new`. -/
def CompositeContextGatherer.new (token_budget : Nat) : CompositeContextGatherer :=
  { gatherers := [], token_budget := token_budget }

/-- `CompositeContextGatherer::add_gatherer`: push, then stable sort by
`Reverse(priority)` (i.e. descending priority). -/
def CompositeContextGatherer.add_gatherer (C : CompositeContextGatherer)
    (g : ContextGatherer) : CompositeContextGatherer :=
  { C with gatherers :=
      (C.gatherers ++ [g]).mergeSort fun a b => b.priority.value ≤ a.priority.value }

/-- The `for gatherer in &self.gatherers` loop of `gather_all`: stop when
the remaining budget is zero, skip failing children, deduct each child's
token sum with a saturating subtraction (`Nat` subtraction). -/
def gatherLoop (query : String) (iteration : Nat) :
    List ContextGatherer → Nat → List ContextChunk
  | [], _ => []
  | g :: gs, remaining =>
    if remaining = 0 then []
    else
      match g.gather query iteration remaining with
      | .ok chunks =>
        chunks ++ gatherLoop query iteration gs
          (remaining - (chunks.map ContextChunk.token_count).sum)
      | .error _ => gatherLoop query iteration gs remaining

/-- `CompositeContextGatherer::gather_all`. -/
def CompositeContextGatherer.gather_all (C : CompositeContextGatherer)
    (query : String) (iteration : Nat) : Except String GatheredContext :=
  if C.gatherers.isEmpty then .ok GatheredContext.empty
  else .ok (GatheredContext.from_chunks (gatherLoop query iteration C.gatherers C.token_budget))

/-! ## Claim C5 — budget bound of the composite gather -/

/-- Budget invariant of the gather loop: with well-behaved children, the
collected token sum never exceeds the remaining budget it started with. -/
lemma gatherLoop_budget (query : String) (iteration : Nat)
    (gs : List ContextGatherer) (remaining : Nat)
    (hwb : ∀ g ∈ gs, ∀ (q : String) (it budget : Nat) (chunks : List ContextChunk),
      g.gather q it budget = .ok chunks →
        (chunks.map ContextChunk.token_count).sum ≤ budget) :
    ((gatherLoop query iteration gs remaining).map ContextChunk.token_count).sum ≤
      remaining := by
  induction gs generalizing remaining with
  | nil => simp [gatherLoop]
  | cons g gs ih =>
    by_cases hz : remaining = 0
    · simp [gatherLoop, hz]
    · rw [gatherLoop, if_neg hz]
      cases hg : g.gather query iteration remaining with
      | error e =>
        exact le_trans (ih remaining fun g' hg' => hwb g' (List.mem_cons_of_mem _ hg'))
          (le_refl _)
      | ok chunks =>
        have hused : (chunks.map ContextChunk.token_count).sum ≤ remaining :=
          hwb g (List.mem_cons_self g gs) query iteration remaining chunks hg
        have hrest := ih (remaining - (chunks.map ContextChunk.token_count).sum)
          fun g' hg' => hwb g' (List.mem_cons_of_mem _ hg')
        simp only [List.map_append, List.sum_append]
        omega

/-- C5: for every composite whose children are well-behaved (a child's
`Ok` chunks never sum beyond the budget it was given), `gather_all`
returns a `GatheredContext` whose `total_tokens` is at most the configured
budget and equals the sum of `token_count` over its chunks. -/
theorem gather_all_budget (C : CompositeContextGatherer) (query : String)
    (iteration : Nat)
    (hwb : ∀ g ∈ C.gatherers, ∀ (q : String) (it budget : Nat) (chunks : List ContextChunk),
      g.gather q it budget = .ok chunks →
        (chunks.map ContextChunk.token_count).sum ≤ budget) :
    ∃ ctx : GatheredContext,
      C.gather_all query iteration = .ok ctx
      ∧ ctx.total_tokens ≤ C.token_budget
      ∧ ctx.total_tokens = (ctx.chunks.map ContextChunk.token_count).sum := by
  unfold CompositeContextGatherer.gather_all
  by_cases hemp : C.gatherers.isEmpty
  · exact ⟨GatheredContext.empty, by rw [if_pos hemp], Nat.zero_le _, rfl⟩
  · rw [if_neg hemp]
    refine ⟨_, rfl, ?_, rfl⟩
    unfold GatheredContext.from_chunks
    have hperm :
        ((gatherLoop query iteration C.gatherers C.token_budget).mergeSort
            fun a b => b.priority.value ≤ a.priority.value).Perm
          (gatherLoop query iteration C.gatherers C.token_budget) :=
      List.mergeSort_perm _ _
    have hsum := (hperm.map ContextChunk.token_count).sum_eq
    simpa [hsum] using gatherLoop_budget query iteration C.gatherers C.token_budget hwb

/-- A well-behaved demonstration child: it returns its one chunk exactly
when the chunk fits the budget it was offered. -/
def demoChild (c : ContextChunk) (nm : String) : ContextGatherer :=
  { gather := fun _ _ budget =>
      if c.token_count ≤ budget then .ok [c] else .ok []
  , priority := c.priority
  , name := nm }

/-- Critical 20-token chunk (spec scenario 6). -/
def chunkA : ContextChunk :=
  { content := "", source := "a", priority := .Critical, token_count := 20, metadata := [] }

/-- High 30-token chunk (spec scenario 6). -/
def chunkB : ContextChunk :=
  { content := "", source := "b", priority := .High, token_count := 30, metadata := [] }

/-- Low 30-token chunk (spec scenario 6). -/
def chunkC : ContextChunk :=
  { content := "", source := "c", priority := .Low, token_count := 30, metadata := [] }

/-- The scenario-6 composite: budget 50, children A (Critical, 20),
B (High, 30), C (Low, 30), already in priority order. -/
def demoComposite : CompositeContextGatherer :=
  { gatherers := [demoChild chunkA "A", demoChild chunkB "B", demoChild chunkC "C"]
  , token_budget := 50 }

/-- Every demonstration child is well-behaved. -/
lemma demoChild_well_behaved (c : ContextChunk) (nm : String) :
    ∀ (q : String) (it budget : Nat) (chunks : List ContextChunk),
      (demoChild c nm).gather q it budget = .ok chunks →
        (chunks.map ContextChunk.token_count).sum ≤ budget := by
  intro q it budget chunks h
  unfold demoChild at h
  dsimp only at h
  split at h
  · cases h
    simpa
  · cases h
    simp

/-- Witness for C5 on the scenario-6 composite. -/
theorem gather_all_budget_witness :
    ∃ ctx : GatheredContext,
      demoComposite.gather_all "q" 0 = .ok ctx
      ∧ ctx.total_tokens ≤ demoComposite.token_budget
      ∧ ctx.total_tokens = (ctx.chunks.map ContextChunk.token_count).sum := by
  refine gather_all_budget demoComposite "q" 0 ?_
  intro g hg
  unfold demoComposite at hg
  simp only [List.mem_cons, List.mem_singleton, List.not_mem_nil, or_false] at hg
  rcases hg with h | h | h <;> subst h <;> exact demoChild_well_behaved _ _

/-! ## `engine.rs` — the ReAct engine

`run()` / `step()` interleave pure control flow with external effects:
the LLM round-trip inside `think()` (context gathering, prompt build,
`mock_llm_call`, thought parsing), tool execution inside `act()`, wall
clock reads (`has_timed_out`), the concurrently written cancellation
flag, UUID generation and duration measurement.  Every external effect is
supplied by an `EngineEnv` oracle, indexed by the loop turn at which the
engine performs it; the control flow around them is embedded exactly. -/

/-- `ReActConfig` (engine.rs). -/
structure ReActConfig where
  max_iterations : Nat
  session_timeout_secs : Nat
  iteration_timeout_secs : Nat
  tool_timeout_secs : Nat
  context_window_tokens : Nat
  parallel_tool_execution : Bool
  include_history_in_context : Bool
  max_observation_tokens : Nat

/-- `ReActConfig::default()`. -/
def ReActConfig.default : ReActConfig :=
  { max_iterations := 10
  , session_timeout_secs := 300
  , iteration_timeout_secs := 60
  , tool_timeout_secs := 30
  , context_window_tokens := 4096
  , parallel_tool_execution := true
  , include_history_in_context := true
  , max_observation_tokens := 500 }

/-- `IterationOutcome` (state.rs). -/
inductive IterationOutcome where
  | Continue (thought_summary : String) (action_count : Nat)
  | Complete (final_answer : String)
  | NeedsInput (prompt : String)
  | Error (message : String)
deriving DecidableEq

/-- `ReActResponse` (engine.rs); durations in milliseconds, `Uuid` as
`Nat`. -/
structure ReActResponse where
  final_answer : Option String
  iterations : List ReActIteration
  terminated_reason : TerminationReason
  total_duration : Nat
  total_tools_executed : Nat
  session_id : Nat

/-- The external effects of one `run()` invocation, indexed by the loop
turn performing them:

* `thinkResult k` — outcome of the whole `think()` body at turn `k`
  (context gather + prompt + LLM call + thought parse; any failure in
  that chain is its `Err`);
* `actResult k` — outcome of `act()` at turn `k` (the observation list
  produced from the executed tools, or the `Err` of a propagated executor
  / join failure);
* `cancelLoopCheck k` / `timeoutLoopCheck k` — values of `is_cancelled()`
  and `has_timed_out()` read by `can_continue()` at the top of turn `k`;
* `cancelStepEntry k` — value of `is_cancelled()` read at `step()` entry
  of turn `k`;
* `timeoutEnd` / `cancelEnd` — values read by the post-loop
  `has_timed_out()` / cancelled check;
* `stepDuration k` — `iteration_start.elapsed()` of turn `k`,
  `totalDuration` — `session_start.elapsed()`;
* `sessionId` — the freshly generated session UUID;
* `fmtSecs` / `fmtPct` — float formatting used by observation summaries. -/
structure EngineEnv where
  thinkResult : Nat → Except String Thought
  actResult : Nat → Except String (List Observation)
  cancelLoopCheck : Nat → Bool
  cancelStepEntry : Nat → Bool
  timeoutLoopCheck : Nat → Bool
  timeoutEnd : Bool
  cancelEnd : Bool
  stepDuration : Nat → Nat
  totalDuration : Nat
  sessionId : Nat
  fmtSecs : Nat → String
  fmtPct : Rat → String

/-- The state the engine constructor installs:
`ReActState::with_config(config.max_iterations, config.session_timeout_secs)`. -/
def engineInitState (cfg : ReActConfig) : ReActState :=
  ReActState.with_config cfg.max_iterations (cfg.session_timeout_secs * 1000)

/-- `TuiReActEngine::step` at loop turn `k`.  `cancelRead` is the value of
`is_cancelled()` at entry; `P` is the engine's observation processor.
Mirrors the source exactly: the cancellation early-exit and the failed
increment yield `Ok(IterationOutcome::Error)`; a failed phase transition
propagates as `Err` (the `?` on `transition_to_phase`); a `think`/`act`
failure yields `Ok(Error)`; a final-answer thought or an empty action
list records the iteration and returns `Complete` / `Continue 0`;
otherwise the engine transitions Acting → Observing, summarises, appends
the summary to the accumulated context, records the iteration and returns
`Continue` with the action count.  (Error message strings are kept only
up to the formatting of the wrapped error values.) -/
def stepM (env : EngineEnv) (P : ObservationProcessor) (k : Nat)
    (cancelRead : Bool) (s : ReActState) :
    Except String IterationOutcome × ReActState :=
  if cancelRead then (.ok (.Error "Cancelled by user"), s)
  else
    match s.increment_iteration with
    | (.error _, s') => (.ok (.Error "Max iterations reached"), s')
    | (.ok _, s1) =>
      match s1.transition_to .Thinking with
      | (.error _, s1') => (.error "Failed to transition phase", s1')
      | (.ok _, s2) =>
        match env.thinkResult k with
        | .error e => (.ok (.Error ("Thinking failed: " ++ e)), s2)
        | .ok thought =>
          if thought.is_final_answer then
            (.ok (.Complete thought.reasoning),
              s2.complete_iteration thought.reasoning [] [] (env.stepDuration k))
          else if thought.planned_actions.isEmpty then
            (.ok (.Continue thought.reasoning 0),
              s2.complete_iteration thought.reasoning [] [] (env.stepDuration k))
          else
            match s2.transition_to .Acting with
            | (.error _, s2') => (.error "Failed to transition phase", s2')
            | (.ok _, s3) =>
              match env.actResult k with
              | .error e => (.ok (.Error ("Action execution failed: " ++ e)), s3)
              | .ok observations =>
                match s3.transition_to .Observing with
                | (.error _, s3') => (.error "Failed to transition phase", s3')
                | (.ok _, s4) =>
                  let summary := P.summarize env.fmtSecs env.fmtPct observations
                  let action_names := thought.planned_actions.map PlannedAction.tool_name
                  let observation_texts := summary.observations.map Observation.content
                  (.ok (.Continue thought.reasoning action_names.length),
                    (s4.add_context summary.formatted_for_llm).complete_iteration
                      thought.reasoning action_names observation_texts
                      (env.stepDuration k))

/-- The `while self.can_continue()` loop of `run()`: at each turn the loop
condition reads the clock and the cancel flag, `step()` runs, a
`Continue` outcome accumulates the tool count of the just-recorded
iteration and loops, every other outcome breaks with the loop's
termination reason (`termination_reason` keeps its initial
`MaxIterationsReached` when the condition simply turns false).  `fuel`
bounds the recursion; `run` passes `max_iterations + 1`, which the loop
can never exhaust (each `Continue` has incremented the iteration counter,
and the condition requires `iteration < max_iterations`), so the fuel-0
branch mirrors the condition-false exit. -/
def runLoop (env : EngineEnv) (P : ObservationProcessor) :
    Nat → Nat → ReActState → Nat →
      Option String × TerminationReason × Nat × ReActState
  | 0, _, s, tools => (none, .MaxIterationsReached, tools, s)
  | fuel + 1, k, s, tools =>
    if s.can_continue (env.timeoutLoopCheck k) && !env.cancelLoopCheck k then
      match stepM env P k (env.cancelStepEntry k) s with
      | (.ok (.Continue _ _), s') =>
        let tools' := tools +
          ((s'.iteration_history.getLast?.map fun it => it.actions_taken.length).getD 0)
        runLoop env P fuel (k + 1) s' tools'
      | (.ok (.Complete answer), s') => (some answer, .TaskComplete, tools, s')
      | (.ok (.NeedsInput _), s') => (none, .Error, tools, s')
      | (.ok (.Error _), s') => (none, .Error, tools, s')
      | (.error _, s') => (none, .Error, tools, s')
    else (none, .MaxIterationsReached, tools, s)

/-- `TuiReActEngine::run`.  `cancelled₀` is the cancellation flag as left
by any `cancel()` issued before this call; the body resets the state and
overwrites the flag with `false` before the loop (so `cancelled₀` is
discarded), runs the loop, then applies the post-loop reason check:
`has_timed_out()` first, the cancel flag second, else the loop's reason. -/
def run (cancelled₀ : Bool) (env : EngineEnv) (cfg : ReActConfig)
    (s₀ : ReActState) : ReActResponse × ReActState :=
  let s := s₀.reset
  let P := ObservationProcessor.new cfg.max_observation_tokens
  let r := runLoop env P (s.max_iterations + 1) 0 s 0
  let termination_reason :=
    if env.timeoutEnd then TerminationReason.Timeout
    else if (false || env.cancelEnd) then TerminationReason.UserCancelled
    else r.2.1
  ({ final_answer := r.1
   , iterations := r.2.2.2.iteration_history
   , terminated_reason := termination_reason
   , total_duration := env.totalDuration
   , total_tools_executed := r.2.2.1
   , session_id := env.sessionId }
  , r.2.2.2)

/-! ## Claim C1 — termination reason and final answer of `run()` -/

/-- Loop invariant: the loop yields `Some` answer exactly when its reason
is `TaskComplete`, and its reason is always one of `TaskComplete`,
`Error`, `MaxIterationsReached` (never `UserCancelled` or `Timeout`). -/
lemma runLoop_answer_reason (env : EngineEnv) (P : ObservationProcessor)
    (fuel k : Nat) (s : ReActState) (tools : Nat) :
    (((runLoop env P fuel k s tools).1.isSome = true) ↔
        (runLoop env P fuel k s tools).2.1 = .TaskComplete)
    ∧ ((runLoop env P fuel k s tools).2.1 = .TaskComplete
        ∨ (runLoop env P fuel k s tools).2.1 = .Error
        ∨ (runLoop env P fuel k s tools).2.1 = .MaxIterationsReached) := by
  induction fuel generalizing k s tools with
  | zero => simp [runLoop]
  | succ fuel ih =>
    rw [runLoop]
    split
    · rcases hstep : stepM env P k (env.cancelStepEntry k) s with ⟨out, s'⟩
      match out with
      | .ok (.Continue a b) => exact ih (k + 1) s' _
      | .ok (.Complete answer) => simp
      | .ok (.NeedsInput p) => simp
      | .ok (.Error m) => simp
      | .error e => simp
    · simp

/-- The environment refuting C1's claimed precedence: the LLM answers
immediately, but the session clock has run out by the post-loop check. -/
def c1Env : EngineEnv :=
  { thinkResult := fun _ => .ok
      { reasoning := "done", confidence := none, planned_actions := []
      , is_final_answer := true, raw_content := "done" }
  , actResult := fun _ => .ok []
  , cancelLoopCheck := fun _ => false
  , cancelStepEntry := fun _ => false
  , timeoutLoopCheck := fun _ => false
  , timeoutEnd := true
  , cancelEnd := false
  , stepDuration := fun _ => 0
  , totalDuration := 0
  , sessionId := 0
  , fmtSecs := fun _ => ""
  , fmtPct := fun _ => "" }

/-- C1 counterexample: a run that completes with a final answer but whose
post-loop `has_timed_out()` check is true returns
`final_answer = Some _` with `terminated_reason = Timeout` — the code's
post-loop override gives Timeout (and UserCancelled) precedence OVER
TaskComplete, and breaks the claimed equivalence
`final_answer.is_some() ⇔ terminated_reason = TaskComplete`. -/
theorem run_reason_precedence_counterexample :
    ((run false c1Env ReActConfig.default (engineInitState ReActConfig.default)).1.final_answer.isSome = true)
    ∧ (run false c1Env ReActConfig.default (engineInitState ReActConfig.default)).1.terminated_reason = .Timeout
    ∧ (run false c1Env ReActConfig.default (engineInitState ReActConfig.default)).1.terminated_reason ≠ .TaskComplete := by
  refine ⟨rfl, rfl, by decide⟩

/-- C1 (amended): `terminated_reason` is always one of the five variants;
the actual precedence is `Timeout > UserCancelled >` (the loop's reason:
TaskComplete / Error / MaxIterationsReached); `final_answer` is `Some`
exactly when the LOOP completed the task, so the claimed equivalence with
`terminated_reason = TaskComplete` holds whenever neither the timeout nor
the cancellation override fires (and `TaskComplete` still implies a
`Some` answer unconditionally, while a `Some` answer implies the reason
is TaskComplete, Timeout or UserCancelled). -/
theorem run_termination_reason (c₀ : Bool) (env : EngineEnv)
    (cfg : ReActConfig) (s₀ : ReActState) :
    ((run c₀ env cfg s₀).1.terminated_reason = .TaskComplete
      ∨ (run c₀ env cfg s₀).1.terminated_reason = .MaxIterationsReached
      ∨ (run c₀ env cfg s₀).1.terminated_reason = .UserCancelled
      ∨ (run c₀ env cfg s₀).1.terminated_reason = .Error
      ∨ (run c₀ env cfg s₀).1.terminated_reason = .Timeout)
    ∧ (env.timeoutEnd = false → env.cancelEnd = false →
        ((run c₀ env cfg s₀).1.final_answer.isSome = true ↔
          (run c₀ env cfg s₀).1.terminated_reason = .TaskComplete))
    ∧ ((run c₀ env cfg s₀).1.terminated_reason = .TaskComplete →
        (run c₀ env cfg s₀).1.final_answer.isSome = true)
    ∧ ((run c₀ env cfg s₀).1.final_answer.isSome = true →
        ((run c₀ env cfg s₀).1.terminated_reason = .TaskComplete
          ∨ (run c₀ env cfg s₀).1.terminated_reason = .Timeout
          ∨ (run c₀ env cfg s₀).1.terminated_reason = .UserCancelled)) := by
  have hloop := runLoop_answer_reason env
    (ObservationProcessor.new cfg.max_observation_tokens)
    (s₀.reset.max_iterations + 1) 0 s₀.reset 0
  unfold run
  simp only [Bool.false_or]
  constructor
  · by_cases ht : env.timeoutEnd <;> by_cases hc : env.cancelEnd <;>
      simp [ht, hc] <;> tauto
  · refine ⟨?_, ?_, ?_⟩
    · intro ht hc
      simp only [ht, hc, if_false, Bool.false_eq_true]
      exact hloop.1
    · by_cases ht : env.timeoutEnd <;> by_cases hc : env.cancelEnd <;>
        simp [ht, hc] <;> intro h <;> exact hloop.1.2 h
    · by_cases ht : env.timeoutEnd <;> by_cases hc : env.cancelEnd <;>
        simp [ht, hc] <;> intro h <;> simp [hloop.1.1 h]

/-- The no-override environment for the C1 witness. -/
def c1WitnessEnv : EngineEnv := { c1Env with timeoutEnd := false }

/-- Witness for the amended C1: with neither override firing, the
immediately-answering run has `Some` answer and reason `TaskComplete`. -/
theorem run_termination_reason_witness :
    ((run false c1WitnessEnv ReActConfig.default (engineInitState ReActConfig.default)).1.final_answer.isSome = true ↔
      (run false c1WitnessEnv ReActConfig.default (engineInitState ReActConfig.default)).1.terminated_reason = .TaskComplete)
    ∧ ((run false c1WitnessEnv ReActConfig.default (engineInitState ReActConfig.default)).1.final_answer.isSome = true) :=
  ⟨(run_termination_reason false c1WitnessEnv ReActConfig.default
      (engineInitState ReActConfig.default)).2.1 rfl rfl, rfl⟩

/-! ## Claim C10 — cancellation is cleared at `run()` entry -/

/-- C10: `run()` overwrites the cancellation flag with `false` before its
loop starts, so the response is a function of the effects observed DURING
the run and the pre-existing flag value is irrelevant; and a
`UserCancelled` termination can only come from the post-loop read of the
flag (the loop itself never yields `UserCancelled`), i.e. from a
`cancel()` observed after `run()` began. -/
theorem run_clears_cancellation (c₀ : Bool) (env : EngineEnv)
    (cfg : ReActConfig) (s₀ : ReActState) :
    (run c₀ env cfg s₀ = run false env cfg s₀)
    ∧ ((run c₀ env cfg s₀).1.terminated_reason = .UserCancelled →
        env.cancelEnd = true) := by
  constructor
  · rfl
  · intro h
    have hloop := runLoop_answer_reason env
      (ObservationProcessor.new cfg.max_observation_tokens)
      (s₀.reset.max_iterations + 1) 0 s₀.reset 0
    unfold run at h
    simp only [Bool.false_or] at h
    by_cases ht : env.timeoutEnd
    · simp [ht] at h
    · by_cases hc : env.cancelEnd
      · exact hc
      · simp only [ht, hc, if_false, Bool.false_eq_true] at h
        rcases hloop.2 with h2 | h2 | h2 <;> rw [h] at h2 <;> simp at h2

/-- The environment for the C10 witness: a cancel lands during the run
and is seen by the post-loop check. -/
def c10Env : EngineEnv := { c1Env with timeoutEnd := false, cancelEnd := true }

/-- Witness for C10: a run whose post-loop cancel read is true terminates
`UserCancelled`, and the theorem recovers that the flag was set during
the run. -/
theorem run_clears_cancellation_witness : c10Env.cancelEnd = true :=
  (run_clears_cancellation true c10Env ReActConfig.default
    (engineInitState ReActConfig.default)).2 rfl

/-! ## Claim C9 — a zero-action iteration stalls the loop -/

/-- `transition_to` either errors leaving the state unchanged, or succeeds
installing the target phase. -/
lemma transition_to_shape (s : ReActState) (p : ReActPhase) :
    (∃ e, s.transition_to p = (.error e, s))
    ∨ s.transition_to p = (.ok (), { s with phase := p }) := by
  unfold ReActState.transition_to
  cases s.phase <;> dsimp only <;> (try split) <;> simp

/-- A step whose outcome is `Continue` with `action_count = 0` took the
zero-action path: it leaves the phase at `Thinking` and has incremented
the iteration counter. -/
lemma stepM_continue_zero (env : EngineEnv) (P : ObservationProcessor)
    (k : Nat) (cr : Bool) (s s' : ReActState) (r : String)
    (h : stepM env P k cr s = (.ok (.Continue r 0), s')) :
    s'.phase = .Thinking ∧ s'.iteration = s.iteration + 1 := by
  unfold stepM at h
  cases cr
  · simp only [Bool.false_eq_true, if_false] at h
    unfold ReActState.increment_iteration at h
    by_cases hmax : s.iteration ≥ s.max_iterations
    · rw [if_pos hmax] at h
      simp at h
    · rw [if_neg hmax] at h
      dsimp only at h
      rcases transition_to_shape { s with iteration := s.iteration + 1 } .Thinking with
        ⟨e, heq⟩ | heq <;> rw [heq] at h <;> dsimp only at h
      · simp at h
      · rcases hth : env.thinkResult k with e | thought <;> rw [hth] at h <;>
          dsimp only at h
        · simp at h
        · by_cases hf : thought.is_final_answer
          · rw [if_pos hf] at h
            simp at h
          · rw [if_neg hf] at h
            by_cases ha : thought.planned_actions.isEmpty
            · rw [if_pos ha] at h
              simp only [Prod.mk.injEq] at h
              rw [← h.2]
              simp [ReActState.complete_iteration]
            · rw [if_neg ha] at h
              rcases transition_to_shape
                  { s with iteration := s.iteration + 1, phase := .Thinking } .Acting with
                ⟨e2, heq2⟩ | heq2 <;> rw [heq2] at h <;> dsimp only at h
              · simp at h
              · rcases hact : env.actResult k with e3 | observations <;> rw [hact] at h <;>
                  dsimp only at h
                · simp at h
                · rcases transition_to_shape
                      { s with iteration := s.iteration + 1, phase := .Acting } .Observing with
                    ⟨e4, heq4⟩ | heq4 <;> rw [heq4] at h <;> dsimp only at h
                  · simp at h
                  · simp only [Prod.mk.injEq, Except.ok.injEq,
                      IterationOutcome.Continue.injEq] at h
                    have hlen := h.1.2
                    rw [List.length_map] at hlen
                    have ha' : thought.planned_actions ≠ [] := fun hnil => ha (by simp [hnil])
                    exact absurd (List.eq_nil_of_length_eq_zero hlen) ha'
  · simp at h

/-- Whenever the session is already in the `Thinking` phase, the next
`step()` cannot continue: it returns the cancellation / max-iterations
`Ok(Error)` or propagates the rejected `Thinking → Thinking` transition
as `Err`. -/
lemma stepM_from_thinking_errors (env : EngineEnv) (P : ObservationProcessor)
    (k : Nat) (cr : Bool) (s : ReActState) (h : s.phase = .Thinking) :
    (stepM env P k cr s).1 = .error "Failed to transition phase"
    ∨ ∃ m, (stepM env P k cr s).1 = .ok (.Error m) := by
  unfold stepM
  cases cr
  · simp only [Bool.false_eq_true, if_false]
    unfold ReActState.increment_iteration
    by_cases hmax : s.iteration ≥ s.max_iterations
    · rw [if_pos hmax]
      exact Or.inr ⟨"Max iterations reached", rfl⟩
    · rw [if_neg hmax]
      dsimp only
      have htrans : ReActState.transition_to { s with iteration := s.iteration + 1 } .Thinking =
          (.error (.InvalidTransition .Thinking .Thinking),
            { s with iteration := s.iteration + 1 }) := by
        unfold ReActState.transition_to
        simp [h]
      rw [htrans]
      exact Or.inl rfl
  · exact Or.inr ⟨"Cancelled by user", rfl⟩

/-- C9 (amended): a `step()` returning `Continue` with `action_count = 0`
leaves the phase at `Thinking` (and has incremented the counter); from
the `Thinking` phase any `step()` call fails — as the propagated `Err` of
the rejected `Thinking → Thinking` transition, or as the cancellation /
max-iterations `Ok(Error)` — so two consecutive `Continue` outcomes after
a zero-action iteration are impossible and the loop, IF it takes another
turn, breaks with loop-reason `Error`; when instead the loop condition
stops it first (max iterations, timeout or cancellation), the run ends
with that reason, not `Error`, as the counterexample shows. -/
theorem step_zero_action_stalls (env : EngineEnv) (P : ObservationProcessor)
    (k k' : Nat) (cr cr' : Bool) (s s' : ReActState) (r : String)
    (h : stepM env P k cr s = (.ok (.Continue r 0), s')) :
    s'.phase = .Thinking
    ∧ ((stepM env P k' cr' s').1 = .error "Failed to transition phase"
        ∨ ∃ m, (stepM env P k' cr' s').1 = .ok (.Error m))
    ∧ (∀ (r' : String) (n : Nat),
        (stepM env P k' cr' s').1 ≠ .ok (.Continue r' n)) := by
  have hphase := (stepM_continue_zero env P k cr s s' r h).1
  have herr := stepM_from_thinking_errors env P k' cr' s' hphase
  refine ⟨hphase, herr, ?_⟩
  intro r' n hcont
  rcases herr with herr | ⟨m, herr⟩ <;> rw [herr] at hcont <;> simp at hcont

/-- The configuration and environment of the C9 counterexample: one
allowed iteration, and an LLM thought with no actions and no final
answer. -/
def c9Config : ReActConfig := { ReActConfig.default with max_iterations := 1 }

/-- Environment whose `think()` yields a zero-action, non-final thought
every turn, with no timeout and no cancellation. -/
def c9Env : EngineEnv :=
  { c1Env with
      timeoutEnd := false
    , thinkResult := fun _ => .ok
        { reasoning := "r", confidence := none, planned_actions := []
        , is_final_answer := false, raw_content := "r" } }

/-- C9 counterexample: with `max_iterations = 1` the zero-action iteration
is the last permitted one — the loop exits at the next condition check
and `run()` terminates `MaxIterationsReached`, not `Error`, although a
zero-action iteration was recorded; so a zero-action iteration does NOT
always terminate the run on the next turn with reason `Error`. -/
theorem step_zero_action_counterexample :
    (run false c9Env c9Config (engineInitState c9Config)).1.terminated_reason =
        .MaxIterationsReached
    ∧ (run false c9Env c9Config (engineInitState c9Config)).1.terminated_reason ≠ .Error
    ∧ (run false c9Env c9Config (engineInitState c9Config)).1.iterations =
        [{ number := 1, thought_text := "r", actions_taken := [], observations := []
         , duration := 0 }] :=
  ⟨rfl, by decide, rfl⟩

/-- Witness for the amended C9 at the concrete zero-action step. -/
theorem step_zero_action_stalls_witness :
    (stepM c9Env (ObservationProcessor.new 500) 0 false (engineInitState c9Config)).2.phase = .Thinking
    ∧ ((stepM c9Env (ObservationProcessor.new 500) 1 false
          (stepM c9Env (ObservationProcessor.new 500) 0 false (engineInitState c9Config)).2).1 =
            .error "Failed to transition phase"
        ∨ ∃ m, (stepM c9Env (ObservationProcessor.new 500) 1 false
            (stepM c9Env (ObservationProcessor.new 500) 0 false (engineInitState c9Config)).2).1 =
              .ok (.Error m))
    ∧ (∀ (r' : String) (n : Nat),
        (stepM c9Env (ObservationProcessor.new 500) 1 false
          (stepM c9Env (ObservationProcessor.new 500) 0 false (engineInitState c9Config)).2).1 ≠
            .ok (.Continue r' n)) :=
  step_zero_action_stalls c9Env (ObservationProcessor.new 500) 0 1 false false
    (engineInitState c9Config)
    (stepM c9Env (ObservationProcessor.new 500) 0 false (engineInitState c9Config)).2 "r"
    (Prod.ext rfl rfl)

end MistralTui
